import Mathlib

/-!
Verification development for the hand-gesture mouse-control application
(`python-image-recognition`).

The Python source is shallowly embedded over exact rational arithmetic (ℚ).
Wall-clock timestamps (`time.time()`) become explicit ℚ-valued parameters.
Planar Euclidean distances (`math.hypot`) are represented by their squares:
for nonnegative reals `a, b` we have `a < b ↔ a^2 < b^2`, so every source
comparison `hypot dx dy < c * hypot dx' dy'` (with `c ≥ 0`) is embedded as the
equivalent comparison of squared quantities, `dx^2 + dy^2 < c^2 * (dx'^2 + dy'^2)`.
Fallible lookups (Python `dict[...]`, raising `KeyError`) are embedded in the
`Except String` monad.
-/

/-- A 2-D landmark point (MediaPipe normalized coordinates). -/
structure Pt where
  x : ℚ
  y : ℚ
deriving DecidableEq, Repr

/-- A hand's landmark list (`hand_landmarks.landmark` in the source);
indexing is total here, out-of-range indices are never used by the code. -/
def Landmarks : Type := Nat → Pt

/-- Build a landmark function from a list (missing entries default to origin). -/
def lmOf (ps : List Pt) : Landmarks := fun i => ps.getD i ⟨0, 0⟩

/-- Squared planar distance: `math.hypot (p.x - q.x) (p.y - q.y)` squared. -/
def sqDist (p q : Pt) : ℚ := (p.x - q.x) ^ 2 + (p.y - q.y) ^ 2

/-- `config/gestures.py`: `LANDMARK_INDICES`, exactly as in the source
(note: no entry for `THUMB_MCP`). -/
def LANDMARK_INDICES : List (String × Nat) :=
  [("THUMB_TIP", 4), ("THUMB_IP", 3), ("INDEX_TIP", 8), ("INDEX_PIP", 6),
   ("INDEX_MCP", 5), ("MIDDLE_TIP", 12), ("MIDDLE_PIP", 10), ("MIDDLE_MCP", 9),
   ("RING_TIP", 16), ("RING_PIP", 14), ("RING_MCP", 13), ("PINKY_TIP", 20),
   ("PINKY_PIP", 18), ("PINKY_MCP", 17), ("WRIST", 0)]

/-- The landmark-index table with the entry the source plainly intends but
omits: MediaPipe's thumb MCP joint is landmark 2.  `is_thumb_extended`
dereferences `landmarks_idx[THUMB_MCP]`, so the table as shipped raises
`KeyError`; this repaired table is used to state intent-level properties. -/
def LANDMARK_INDICES_FIXED : List (String × Nat) :=
  ("THUMB_MCP", 2) :: LANDMARK_INDICES

/-- Python `self.landmarks_idx[k]`: dictionary lookup, `KeyError` on a
missing key. -/
def getIdxE (tbl : List (String × Nat)) (k : String) : Except String Nat :=
  match tbl.find? (fun p => p.1 == k) with
  | some p => Except.ok p.2
  | none => Except.error ("KeyError: " ++ k)

/-- `GestureRecognizer.is_finger_extended` (squared form): tip must be 5%
farther from the wrist than the PIP joint, i.e. `dist_tip > 1.05 * dist_pip`;
squared: `distSq_tip > (441/400) * distSq_pip`.  The `mcp` argument is
accepted and unused, as in the source. -/
def is_finger_extended (lm : Landmarks) (tipIdx pipIdx : Nat) (mcpIdx : Nat) : Bool :=
  let _ := mcpIdx
  decide ((441 / 400 : ℚ) * sqDist (lm pipIdx) (lm 0) < sqDist (lm tipIdx) (lm 0))

/-- `GestureRecognizer.is_thumb_extended`, parametrized by the landmark-index
table.  Squared comparisons: `dist_tip > dist_ip`, `dist_tip > dist_mcp`, and
`thumb_index_dist > 0.45 * scale_ref` becomes `> (81/400) * scale_ref²`.
The `handedness` argument is accepted and unused, as in the source. -/
def is_thumb_extended (tbl : List (String × Nat)) (lm : Landmarks) (hd : String) :
    Except String Bool := do
  let _ := hd
  let wrist := lm 0
  let tip := lm (← getIdxE tbl "THUMB_TIP")
  let ip := lm (← getIdxE tbl "THUMB_IP")
  let mcp := lm (← getIdxE tbl "THUMB_MCP")
  let index_mcp := lm (← getIdxE tbl "INDEX_MCP")
  let dist_tip_sq := sqDist tip wrist
  let dist_ip_sq := sqDist ip wrist
  let dist_mcp_sq := sqDist mcp wrist
  let is_long_enough := decide (dist_ip_sq < dist_tip_sq ∧ dist_mcp_sq < dist_tip_sq)
  let scale_ref_sq := sqDist index_mcp wrist
  let thumb_index_dist_sq := sqDist tip index_mcp
  let is_sticking_out := decide ((81 / 400 : ℚ) * scale_ref_sq < thumb_index_dist_sq)
  pure (is_long_enough && is_sticking_out)

/-- `GestureRecognizer.get_finger_states`: `[thumb, index, middle, ring, pinky]`. -/
def get_finger_states (tbl : List (String × Nat)) (lm : Landmarks) (hd : String) :
    Except String (List Bool) := do
  let thumb ← is_thumb_extended tbl lm hd
  let index := is_finger_extended lm (← getIdxE tbl "INDEX_TIP")
    (← getIdxE tbl "INDEX_PIP") (← getIdxE tbl "INDEX_MCP")
  let middle := is_finger_extended lm (← getIdxE tbl "MIDDLE_TIP")
    (← getIdxE tbl "MIDDLE_PIP") (← getIdxE tbl "MIDDLE_MCP")
  let ring := is_finger_extended lm (← getIdxE tbl "RING_TIP")
    (← getIdxE tbl "RING_PIP") (← getIdxE tbl "RING_MCP")
  let pinky := is_finger_extended lm (← getIdxE tbl "PINKY_TIP")
    (← getIdxE tbl "PINKY_PIP") (← getIdxE tbl "PINKY_MCP")
  pure [thumb, index, middle, ring, pinky]

/-- `GestureRecognizer.calculate_hand_scale` (squared): after a dead lookup of
`MIDDLE_TIP`, the scale is the planar distance from the wrist (0) to the
hardcoded middle-finger MCP (9); we return its square. -/
def calculate_hand_scale (tbl : List (String × Nat)) (lm : Landmarks) :
    Except String ℚ := do
  let _ ← getIdxE tbl "MIDDLE_TIP"
  pure (sqDist (lm 9) (lm 0))

/-- One entry of the `GESTURES` table in `config/gestures.py`. -/
structure GEntry where
  key : String
  fingers : List Bool
  action : String
  exact_match : Bool
  priority : Nat
deriving DecidableEq, Repr

/-- `config/gestures.py`: `GESTURES`, in dict insertion order
(the commented-out peace-sign LEFT_CLICK entry is absent, as in the source). -/
def GESTURES : List GEntry :=
  [⟨"NEUTRAL", [false, false, false, false, false], "none", true, 1⟩,
   ⟨"CURSOR_CONTROL", [false, true, false, false, false], "move_cursor", true, 1⟩,
   ⟨"RIGHT_CLICK", [true, false, false, false, true], "right_click", true, 2⟩,
   ⟨"SCROLL_UP", [false, true, true, true, false], "scroll_up", true, 2⟩,
   ⟨"SCROLL_DOWN", [false, true, true, true, true], "scroll_down", true, 2⟩,
   ⟨"LEFT_CLICK", [true, true, false, false, false], "left_click", true, 3⟩,
   ⟨"DOUBLE_CLICK", [false, true, false, false, true], "double_click", true, 2⟩,
   ⟨"STOP", [true, true, true, true, true], "stop", true, 1⟩]

/-- `sorted(self.gestures.items(), key=priority)`: Python `sorted` is stable,
so the result is the priority-1 entries in insertion order, then priority 2,
then priority 3. -/
def sorted_gestures : List GEntry :=
  [⟨"NEUTRAL", [false, false, false, false, false], "none", true, 1⟩,
   ⟨"CURSOR_CONTROL", [false, true, false, false, false], "move_cursor", true, 1⟩,
   ⟨"STOP", [true, true, true, true, true], "stop", true, 1⟩,
   ⟨"RIGHT_CLICK", [true, false, false, false, true], "right_click", true, 2⟩,
   ⟨"SCROLL_UP", [false, true, true, true, false], "scroll_up", true, 2⟩,
   ⟨"SCROLL_DOWN", [false, true, true, true, true], "scroll_down", true, 2⟩,
   ⟨"DOUBLE_CLICK", [false, true, false, false, true], "double_click", true, 2⟩,
   ⟨"LEFT_CLICK", [true, true, false, false, false], "left_click", true, 3⟩]

/-- `config/gestures.py`: `GESTURE_DISPLAY_NAMES`. -/
def GESTURE_DISPLAY_NAMES : List (String × String) :=
  [("NEUTRAL", "NEUTRAL (Fist)"), ("CURSOR_CONTROL", "CURSOR CONTROL"),
   ("LEFT_CLICK", "LEFT CLICK (L shape)"), ("RIGHT_CLICK", "RIGHT CLICK"),
   ("DOUBLE_CLICK", "DOUBLE CLICK (Index + Pinky)"), ("SCROLL_UP", "SCROLL UP (3 fingers)"),
   ("SCROLL_DOWN", "SCROLL DOWN (4 fingers)"), ("STOP", "STOP")]

/-- `self.display_names.get(gesture_name, gesture_name)`. -/
def displayName (k : String) : String :=
  match GESTURE_DISPLAY_NAMES.find? (fun p => p.1 == k) with
  | some p => p.2
  | none => k

/-- Result of `GestureRecognizer.recognize_gesture`. -/
structure GestureInfo where
  name : String
  action : String
  gesture_key : String
  confidence : ℚ
deriving DecidableEq, Repr

/-- The table-matching loop of `recognize_gesture` (step 3): first exact
finger-pattern match wins; the `DOUBLE_CLICK` entry is skipped (`continue`)
when the thumb-tip/index-tip distance is below `1.0 * hand_scale`
(squared: `distSq < hand_scaleSq`). -/
def matchGestures : List GEntry → List Bool → ℚ → ℚ → Option GEntry
  | [], _, _, _ => none
  | e :: rest, fs, distIdxThumbSq, handScaleSq =>
    if e.exact_match = true ∧ fs = e.fingers then
      if e.key = "DOUBLE_CLICK" ∧ distIdxThumbSq < handScaleSq * 1 then
        matchGestures rest fs distIdxThumbSq handScaleSq
      else some e
    else matchGestures rest fs distIdxThumbSq handScaleSq

/-- `GestureRecognizer.recognize_gesture`, parametrized by the landmark-index
table.  Squared-distance translation: pinch override
`distance < max(0.02, 0.3*scale)` becomes
`distSq < max(0.02², (0.3)²*scaleSq) = max(1/2500, (9/100)*scaleSq)`;
scroll pair check `pair_dist < 0.6*scale` becomes `pairSq < (9/25)*scaleSq`. -/
def recognize_gesture (tbl : List (String × Nat)) (lm : Landmarks) (hd : String) :
    Except String GestureInfo := do
  let finger_states ← get_finger_states tbl lm hd
  let hand_scale_sq ← calculate_hand_scale tbl lm
  let idx_tip := lm (← getIdxE tbl "INDEX_TIP")
  let thumb_tip := lm (← getIdxE tbl "THUMB_TIP")
  let distance_sq := sqDist idx_tip thumb_tip
  if distance_sq < max (1 / 2500 : ℚ) ((9 / 100) * hand_scale_sq) then
    pure ⟨"MOVING (Pinch)", "move_cursor", "CURSOR_CONTROL", 1⟩
  else
    let mid_tip := lm (← getIdxE tbl "MIDDLE_TIP")
    let pair_dist_sq := sqDist idx_tip mid_tip
    if finger_states.getD 1 false = true ∧ finger_states.getD 2 false = true ∧
        pair_dist_sq < (9 / 25 : ℚ) * hand_scale_sq ∧ finger_states.getD 3 false = false then
      pure ⟨"SCROLL MODE", "scroll_active", "SCROLL_ACTIVE", 1⟩
    else
      match matchGestures sorted_gestures finger_states distance_sq hand_scale_sq with
      | some e => pure ⟨displayName e.key, e.action, e.key, 1⟩
      | none => pure ⟨"UNKNOWN", "none", "UNKNOWN", 0⟩

/-- `one_euro_filter.py`: `LowPassFilter` state (`y` = last raw value,
`s` = last smoothed value). -/
structure LowPassFilter where
  y : ℚ
  s : ℚ
  alpha : ℚ
  initialized : Bool
deriving DecidableEq, Repr

/-- `LowPassFilter.__init__(alpha, init_val=0)`. -/
def LowPassFilter.mk0 (alpha : ℚ) : LowPassFilter :=
  ⟨0, 0, alpha, false⟩

/-- `LowPassFilter.filter`: exponential smoothing once initialized,
pass-through (and seeding) on the first sample.  Returns (result, new state). -/
def LowPassFilter.filter (f : LowPassFilter) (value : ℚ) : ℚ × LowPassFilter :=
  let result := if f.initialized = true then f.alpha * value + (1 - f.alpha) * f.s else value
  (result, ⟨value, result, f.alpha, true⟩)

/-- `LowPassFilter.filter_with_alpha`. -/
def LowPassFilter.filter_with_alpha (f : LowPassFilter) (value alpha : ℚ) :
    ℚ × LowPassFilter :=
  LowPassFilter.filter ⟨f.y, f.s, alpha, f.initialized⟩ value

/-- The IEEE-754 double `math.pi` used by the source, as an exact rational. -/
def mathPi : ℚ := 884279719003555 / 281474976710656

/-- `one_euro_filter.py`: `OneEuroFilter` state. -/
structure OneEuroFilter where
  min_cutoff : ℚ
  beta : ℚ
  d_cutoff : ℚ
  x_filter : LowPassFilter
  dx_filter : LowPassFilter
  last_time : Option ℚ
deriving DecidableEq, Repr

/-- `OneEuroFilter.__init__`. -/
def OneEuroFilter.init (min_cutoff beta d_cutoff : ℚ) : OneEuroFilter :=
  ⟨min_cutoff, beta, d_cutoff, LowPassFilter.mk0 1, LowPassFilter.mk0 1, none⟩

/-- `OneEuroFilter._alpha(rate, cutoff) = 1 / (1 + tau / te)` with
`tau = 1 / (2π·cutoff)` and `te = 1 / rate`. -/
def oeAlpha (rate cutoff : ℚ) : ℚ :=
  let tau := 1 / (2 * mathPi * cutoff)
  let te := 1 / rate
  1 / (1 + tau / te)

/-- `OneEuroFilter.filter(x, timestamp)`: first call seeds state and returns
`x`; non-positive elapsed time returns the last filtered value with the state
untouched; otherwise the adaptive one-euro update. -/
def OneEuroFilter.filter (f : OneEuroFilter) (x timestamp : ℚ) : ℚ × OneEuroFilter :=
  match f.last_time with
  | none =>
    let r := f.x_filter.filter x
    (r.1, { f with x_filter := r.2, last_time := some timestamp })
  | some lt =>
    let dt := timestamp - lt
    if dt ≤ 0 then (f.x_filter.s, f)
    else
      let rate := 1 / dt
      let dx := (x - f.x_filter.y) * rate
      let dxRes := f.dx_filter.filter_with_alpha dx (oeAlpha rate f.d_cutoff)
      let cutoff := f.min_cutoff + f.beta * |dxRes.1|
      let xRes := f.x_filter.filter_with_alpha x (oeAlpha rate cutoff)
      (xRes.1, { f with x_filter := xRes.2, dx_filter := dxRes.2, last_time := some timestamp })

/-- Run `OneEuroFilter.filter` over a list of (value, timestamp) samples,
collecting the outputs. -/
def runOEF (f : OneEuroFilter) : List (ℚ × ℚ) → List ℚ × OneEuroFilter
  | [] => ([], f)
  | (x, t) :: rest =>
    let r := f.filter x t
    let rs := runOEF r.2 rest
    (r.1 :: rs.1, rs.2)

/-- Commands issued to the OS input injector (PyAutoGUI) by `MouseController`. -/
inductive MouseCmd where
  | clickCmd
  | rightClickCmd
  | doubleClickCmd
  | scrollCmd (steps : ℤ)
deriving DecidableEq, Repr

/-- The click-cooldown state shared by `left_click`, `right_click` and
`double_click` (`self.last_click_time`); `self.click_cooldown = 0.5`. -/
structure ClickState where
  last_click_time : ℚ
deriving DecidableEq, Repr

/-- `MouseController.left_click` (the `time.time()` value is the explicit
`now`): emits iff more than 0.5 s has passed since `last_click_time`. -/
def left_click (s : ClickState) (now : ℚ) : ClickState × List MouseCmd × Bool :=
  if 1 / 2 < now - s.last_click_time then (⟨now⟩, [MouseCmd.clickCmd], true)
  else (s, [], false)

/-- `MouseController.right_click`. -/
def right_click (s : ClickState) (now : ℚ) : ClickState × List MouseCmd × Bool :=
  if 1 / 2 < now - s.last_click_time then (⟨now⟩, [MouseCmd.rightClickCmd], true)
  else (s, [], false)

/-- `MouseController.double_click`. -/
def double_click (s : ClickState) (now : ℚ) : ClickState × List MouseCmd × Bool :=
  if 1 / 2 < now - s.last_click_time then (⟨now⟩, [MouseCmd.doubleClickCmd], true)
  else (s, [], false)

/-- Which of the three click methods is invoked. -/
inductive ClickKind where
  | leftK
  | rightK
  | doubleK
deriving DecidableEq, Repr

/-- Dispatch one click-method call. -/
def doClick (k : ClickKind) (s : ClickState) (now : ℚ) : ClickState × List MouseCmd × Bool :=
  match k with
  | ClickKind.leftK => left_click s now
  | ClickKind.rightK => right_click s now
  | ClickKind.doubleK => double_click s now

/-- Run a sequence of click-method calls (kind, wall-clock time), collecting
the times at which an OS click command was actually emitted. -/
def runClicks (s : ClickState) : List (ClickKind × ℚ) → ClickState × List ℚ
  | [] => (s, [])
  | (k, t) :: rest =>
    let r := doClick k s t
    let rs := runClicks r.1 rest
    (rs.1, if r.2.2 = true then t :: rs.2 else rs.2)

/-- Python `int()` truncation toward zero on a rational. -/
def truncQ (q : ℚ) : ℤ := if 0 ≤ q then ⌊q⌋ else ⌈q⌉

/-- The scroll-relevant state of `MouseController`
(`self.scroll_filter`, `self.scroll_accumulator`). -/
structure ScrollState where
  scroll_filter : OneEuroFilter
  scroll_accumulator : ℚ
deriving DecidableEq, Repr

/-- `MouseController.__init__`: scroll filter
`OneEuroFilter(min_cutoff=0.5, beta=0.05, d_cutoff=1.0)`, accumulator 0. -/
def ScrollState.init : ScrollState :=
  ⟨OneEuroFilter.init (1 / 2) (1 / 20) 1, 0⟩

/-- `MouseController.scroll_vertical(speed)` at wall-clock time `t`:
dead-zone below |speed| = 0.1, otherwise filter, accumulate, emit the
truncated whole-unit part (if nonzero) and keep the fractional remainder.
Returns (new state, emitted command, returned boolean). -/
def scroll_vertical (st : ScrollState) (speed t : ℚ) :
    ScrollState × Option MouseCmd × Bool :=
  if |speed| < 1 / 10 then (st, none, false)
  else
    let res := st.scroll_filter.filter speed t
    let acc := st.scroll_accumulator + res.1
    let steps := truncQ acc
    if steps ≠ 0 then (⟨res.2, acc - steps⟩, some (MouseCmd.scrollCmd steps), true)
    else (⟨res.2, acc⟩, none, false)

/-- Run a sequence of `scroll_vertical` calls. -/
def runScroll (st : ScrollState) : List (ℚ × ℚ) → ScrollState
  | [] => st
  | (speed, t) :: rest => runScroll (scroll_vertical st speed t).1 rest

/-- `queue.Queue(maxsize=1).put_nowait`: errors (queue.Full) when the single
slot is occupied. -/
def put_nowait (slot : Option α) (f : α) : Except Unit (Option α) :=
  match slot with
  | none => Except.ok (some f)
  | some _ => Except.error ()

/-- `queue.Queue(maxsize=1).get_nowait`: errors (queue.Empty) when the slot
is empty. -/
def get_nowait (slot : Option α) : Except Unit (α × Option α) :=
  match slot with
  | some f => Except.ok (f, none)
  | none => Except.error ()

/-- `AIWorker.submit_frame`: no-op when the worker is not running; otherwise
try `put_nowait`, and on `queue.Full` drop the pending frame
(`get_nowait`) and put the new one.  Total, hence never blocks or raises. -/
def submit_frame (running : Bool) (slot : Option α) (frame : α) : Option α :=
  if running = false then slot
  else
    match put_nowait slot frame with
    | Except.ok s => s
    | Except.error _ =>
      match get_nowait slot with
      | Except.ok (_, s1) =>
        match put_nowait s1 frame with
        | Except.ok s2 => s2
        | Except.error _ => s1
      | Except.error _ => slot

/-- The per-hand trigger/timing state of `HandGestureApp`
(`app.py.__init__`, gesture-timing fields). -/
structure TriggerState where
  last_gesture_name : Option String
  gesture_start_time : ℚ
  gesture_triggered : Bool
  needs_reset : Bool
  last_movement_time : ℚ
  scroll_zero_y : Option ℚ
  last_scroll_active_time : ℚ
  hand_visible_start_time : ℚ
deriving DecidableEq, Repr

/-- Initial trigger state (`HandGestureApp.__init__`). -/
def TriggerState.init : TriggerState :=
  ⟨none, 0, false, false, 0, none, 0, 0⟩

/-- `self.gesture_buffer.append(raw_key)` on a `deque(maxlen=6)`:
appending to a full deque drops the oldest element. -/
def pushBuffer (buf : List String) (k : String) : List String :=
  let b := buf ++ [k]
  if 6 < b.length then b.drop (b.length - 6) else b

/-- Number of occurrences of a key in the buffer (`Counter` count). -/
def countKey (buf : List String) (k : String) : Nat :=
  (buf.filter (fun x => x == k)).length

/-- The buffer's keys in first-occurrence order: the iteration order of
`collections.Counter(buffer)`. -/
def firstOccs (buf : List String) : List String :=
  buf.foldl (fun acc k => if k ∈ acc then acc else acc ++ [k]) []

/-- Fold selecting the candidate with the strictly largest count, keeping the
earlier candidate on ties — exactly the element
`Counter(buffer).most_common(1)[0]` (Python's sort is stable, so ties go to
the first key in Counter insertion order). -/
def bestStep (buf : List String) (best : Option (String × Nat)) (k : String) :
    Option (String × Nat) :=
  match best with
  | none => some (k, countKey buf k)
  | some (bk, bc) => if bc < countKey buf k then some (k, countKey buf k) else some (bk, bc)

def bestOf (buf : List String) (cands : List String) : Option (String × Nat) :=
  cands.foldl (bestStep buf) none

/-- `Counter(self.gesture_buffer).most_common(1)[0]` (as an `Option` for the
empty buffer, which the source never queries). -/
def mostCommon (buf : List String) : Option (String × Nat) :=
  bestOf buf (firstOccs buf)

/-- The stability/hysteresis resolution in `HandGestureApp.run`
(lines 360-380): given the post-append buffer and this tick's raw key,
produce `(target_key, is_stable)`. -/
def resolveBuffer (buf : List String) (rawKey : String) : String × Bool :=
  if "SCROLL_ACTIVE" ∈ buf then ("SCROLL_ACTIVE", true)
  else
    match mostCommon buf with
    | some (stable_key, count) =>
      if 4 ≤ count then (stable_key, true) else (rawKey, false)
    | none => (rawKey, false)

/-- Modelled from the spec: the resolution rule as the specification words it
("otherwise the tick is unstable and the previously accepted key is retained
unchanged"), taking the previously accepted stable key as an extra input.
Used only to compare the spec's description against `resolveBuffer`. -/
def resolveBufferSpec (buf : List String) (prevStable : String) : String × Bool :=
  if "SCROLL_ACTIVE" ∈ buf then ("SCROLL_ACTIVE", true)
  else
    match mostCommon buf with
    | some (stable_key, count) =>
      if 4 ≤ count then (stable_key, true) else (prevStable, false)
    | none => (prevStable, false)

/-- Action re-derivation when the stable key differs from the raw key
(`app.py` lines 382-394). -/
def resolveAction (targetKey rawKey rawAction : String) : String :=
  if targetKey = rawKey then rawAction
  else
    match GESTURES.find? (fun e => e.key == targetKey) with
    | some e => e.action
    | none =>
      if targetKey = "SCROLL_ACTIVE" then "scroll_active"
      else if targetKey = "CURSOR_CONTROL" then "move_cursor"
      else rawAction

/-- `target_key in ['LEFT_CLICK', 'RIGHT_CLICK', 'DOUBLE_CLICK']`. -/
def isClickKey (k : String) : Bool :=
  k == "LEFT_CLICK" || k == "RIGHT_CLICK" || k == "DOUBLE_CLICK"

/-- Per-gesture trigger delay: `GESTURE_TRIGGER_DELAY_DOUBLE = 0.8` for
DOUBLE_CLICK, `GESTURE_TRIGGER_DELAY_CLICK = 0.5` otherwise. -/
def triggerDelay (k : String) : ℚ :=
  if k = "DOUBLE_CLICK" then 8 / 10 else 5 / 10

/-- `MOVEMENT_GRACE_PERIOD = 0.3` (config.py). -/
def MOVEMENT_GRACE_PERIOD : ℚ := 3 / 10

/-- What one decision tick reports/executes (the `action_result` branches of
`HandGestureApp.run`; `clickFired`/`instantAction` mark the ticks on which
`mouse_controller.execute_action` is invoked). -/
inductive TickOutput where
  | scrolled (speed : ℚ)
  | releaseToReset
  | instantAction (action : String)
  | stabilizing
  | clickFired (action : String)
  | actionComplete
  | holdWaiting
  | holdStart
deriving DecidableEq, Repr

/-- The `else` (non-scrolling) part of the decision step (`app.py` lines
442-507): clear the scroll baseline, apply the needs-reset gate, execute
non-click keys instantly (updating the movement timestamp for
movement-class keys), and run the delayed single-shot click logic. -/
def nonScrollTick (s : TriggerState) (now : ℚ) (targetKey : String) (isStable : Bool)
    (targetAction : String) : TriggerState × TickOutput :=
  let s := { s with scroll_zero_y := none }
  let is_click_action := isClickKey targetKey
  if s.needs_reset = true ∧ ¬(is_click_action = false ∧ isStable = true) then
    (s, TickOutput.releaseToReset)
  else
    let s := { s with needs_reset := false }
    if is_click_action = false then
      let s := { s with last_gesture_name := some targetKey,
                        gesture_start_time := now, gesture_triggered := false }
      let s := if targetKey = "CURSOR_CONTROL" ∨ targetKey = "DRAG" then
          { s with last_movement_time := now } else s
      (s, TickOutput.instantAction targetAction)
    else
      if some targetKey = s.last_gesture_name then
        if now - s.last_movement_time < MOVEMENT_GRACE_PERIOD then
          ({ s with gesture_start_time := now }, TickOutput.stabilizing)
        else if triggerDelay targetKey < now - s.gesture_start_time then
          if s.gesture_triggered = false then
            ({ s with gesture_triggered := true, needs_reset := true },
             TickOutput.clickFired targetAction)
          else (s, TickOutput.actionComplete)
        else (s, TickOutput.holdWaiting)
      else
        ({ s with last_gesture_name := some targetKey, gesture_start_time := now,
                  gesture_triggered := false },
         TickOutput.holdStart)

/-- One mouse-control decision step of `HandGestureApp.run` (lines 401-507),
after buffer resolution: inputs are the wall-clock `now`, the resolved
`(target_key, is_stable, target_action)` and the index-tip y coordinate.
Covers scroll latching (0.5 s grace re-forcing SCROLL_ACTIVE while a zero
baseline is latched) and delegates to `nonScrollTick` otherwise. -/
def decideTick (s : TriggerState) (now : ℚ) (targetKey : String) (isStable : Bool)
    (targetAction : String) (indexY : ℚ) : TriggerState × TickOutput :=
  let is_scrolling0 := targetKey = "SCROLL_ACTIVE"
  let s1 := if is_scrolling0 then { s with last_scroll_active_time := now } else s
  let forced := ¬is_scrolling0 ∧ s1.scroll_zero_y ≠ none ∧
    now - s1.last_scroll_active_time < 1 / 2
  if is_scrolling0 ∨ forced then
    let zy := s1.scroll_zero_y.getD indexY
    let speed := -(indexY - zy) * 30
    ({ s1 with scroll_zero_y := some zy, last_gesture_name := some "SCROLL_ACTIVE" },
     TickOutput.scrolled speed)
  else nonScrollTick s1 now targetKey isStable targetAction

/-- One per-hand gesture record as consumed by the `run` logic loop. -/
structure GestureIn where
  raw_key : String
  raw_action : String
  indexY : ℚ
  hasLandmarks : Bool
deriving DecidableEq, Repr

/-- The `for gesture in gestures` logic loop of `HandGestureApp.run` in mouse
mode: skip entries without landmarks, push the raw key into the stability
buffer, resolve, and run the decision step.  With no hand detected the list
is empty and the loop body never executes. -/
def runLogicTick (s : TriggerState) (buf : List String) (now : ℚ) :
    List GestureIn → TriggerState × List String × List TickOutput
  | [] => (s, buf, [])
  | g :: rest =>
    if g.hasLandmarks = false then runLogicTick s buf now rest
    else
      let buf1 := pushBuffer buf g.raw_key
      let res := resolveBuffer buf1 g.raw_key
      let act := resolveAction res.1 g.raw_key g.raw_action
      let step := decideTick s now res.1 res.2 act g.indexY
      let rest1 := runLogicTick step.1 buf1 now rest
      (rest1.1, rest1.2.1, step.2 :: rest1.2.2)

/-- The no-hand branch of `HandGestureApp.process_frame` (lines 273-275):
only the hand-entry debounce origin is cleared. -/
def processFrameNoHand (s : TriggerState) : TriggerState :=
  { s with hand_visible_start_time := 0 }

/-- Run a sequence of decision ticks that all carry the same target key `k`
(an unbroken hold of that key), collecting the outputs. -/
def clickTicksRun (s : TriggerState) (k : String) :
    List (ℚ × Bool × String × ℚ) → TriggerState × List TickOutput
  | [] => (s, [])
  | (now, stb, act, y) :: rest =>
    let step := decideTick s now k stb act y
    let rest1 := clickTicksRun step.1 k rest
    (rest1.1, step.2 :: rest1.2)

/-- Whether a tick output is a click-action execution. -/
def isFire : TickOutput → Bool
  | TickOutput.clickFired _ => true
  | _ => false

/-- Number of click-action executions in a list of tick outputs. -/
def countFires (os : List TickOutput) : Nat :=
  (os.filter isFire).length

def lmPinch : Landmarks := lmOf []

def thumb_extended_fixed (lm : Landmarks) : Bool :=
  decide (sqDist (lm 3) (lm 0) < sqDist (lm 4) (lm 0) ∧
          sqDist (lm 2) (lm 0) < sqDist (lm 4) (lm 0)) &&
  decide ((81 / 400 : ℚ) * sqDist (lm 5) (lm 0) < sqDist (lm 4) (lm 5))

def finger_states_fixed (lm : Landmarks) : List Bool :=
  [thumb_extended_fixed lm, is_finger_extended lm 8 6 5, is_finger_extended lm 12 10 9,
   is_finger_extended lm 16 14 13, is_finger_extended lm 20 18 17]

/-- The thumb-extension predicate exactly as claim C7 words it (squared
distances): condition (a) on the thumb joints, and condition (b) measured
against 0.45 × the HAND SCALE (wrist to middle-finger base, landmark 9). -/
def claimedThumbPredicate (lm : Landmarks) : Prop :=
  (sqDist (lm 3) (lm 0) < sqDist (lm 4) (lm 0) ∧
   sqDist (lm 2) (lm 0) < sqDist (lm 4) (lm 0)) ∧
  (81 / 400 : ℚ) * sqDist (lm 9) (lm 0) < sqDist (lm 4) (lm 5)

/-- Landmarks on which claim C7's predicate is true (so the claimed
`is_thumb_extended` would return true), but the code raises. -/
def lmT1 : Landmarks :=
  lmOf [⟨0, 0⟩, ⟨0, 0⟩, ⟨1, 0⟩, ⟨1, 0⟩, ⟨5, 0⟩, ⟨1, 0⟩, ⟨0, 0⟩, ⟨0, 0⟩, ⟨0, 0⟩, ⟨1, 0⟩]

/-- Landmarks separating the code's scale reference (wrist→index base) from
the claim's (wrist→middle base): the repaired code says extended, the
claimed predicate says not. -/
def lmT2 : Landmarks :=
  lmOf [⟨0, 0⟩, ⟨0, 0⟩, ⟨1 / 2, 0⟩, ⟨3 / 2, 0⟩, ⟨2, 0⟩, ⟨1, 0⟩, ⟨0, 0⟩, ⟨0, 0⟩, ⟨0, 0⟩, ⟨3, 0⟩]

/-- The after-fire invariant: single-shot flag set, needs-reset set, scroll
baseline clear. -/
def postFireInv (s : TriggerState) : Prop :=
  s.gesture_triggered = true ∧ s.needs_reset = true ∧ s.scroll_zero_y = none

/-- Invariant for constant-input feeding: once the x low-pass filter is
initialized, its smoothed value equals the constant. -/
def constInv (c : ℚ) (f : OneEuroFilter) : Prop :=
  (f.x_filter.initialized = true → f.x_filter.s = c) ∧
  (f.last_time = none ∨ f.x_filter.initialized = true)

/-- Concrete instantiation of `C4_filter_first_call_and_nonpositive_dt`:
a filter state seeded at time 10 and called again at time 10. -/
def c4state : OneEuroFilter := ((OneEuroFilter.init 1 0 1).filter 5 10).2

/-- A state holding RIGHT_CLICK since time -1, last movement at 0, neutral
flags, no scroll baseline, scroll long inactive. -/
def c1state : TriggerState := ⟨some "RIGHT_CLICK", -1, false, false, 0, none, -10, 0⟩

/-- A filter state after one seeding call at value 0, time 0. -/
def c9state : OneEuroFilter := ((OneEuroFilter.init 1 0 1).filter 0 0).2

/-! ### Helper lemmas -/

lemma truncQ_fract_bounds (q : ℚ) : -1 < q - truncQ q ∧ q - truncQ q < 1 := by
  unfold truncQ
  split
  · constructor
    · have h1 := Int.floor_le q
      linarith
    · have := Int.lt_floor_add_one q
      push_cast at this ⊢
      linarith
  · constructor
    · have := Int.ceil_lt_add_one q
      push_cast at this ⊢
      linarith
    · have h1 := Int.le_ceil q
      push_cast at h1 ⊢
      linarith

lemma truncQ_eq_zero_bounds (q : ℚ) (h : truncQ q = 0) : -1 < q ∧ q < 1 := by
  have h2 := truncQ_fract_bounds q
  rw [h] at h2
  push_cast at h2
  constructor <;> linarith [h2.1, h2.2]

lemma scroll_step_bounds (st : ScrollState) (speed t : ℚ)
    (h1 : -1 < st.scroll_accumulator) (h2 : st.scroll_accumulator < 1) :
    -1 < (scroll_vertical st speed t).1.scroll_accumulator ∧
      (scroll_vertical st speed t).1.scroll_accumulator < 1 := by
  unfold scroll_vertical
  split
  · exact ⟨h1, h2⟩
  · dsimp only
    split
    · exact truncQ_fract_bounds _
    · rename_i hz
      simp only [ne_eq, not_not] at hz
      exact truncQ_eq_zero_bounds _ hz

lemma runScroll_bounds (calls : List (ℚ × ℚ)) :
    ∀ st : ScrollState, -1 < st.scroll_accumulator → st.scroll_accumulator < 1 →
      -1 < (runScroll st calls).scroll_accumulator ∧
        (runScroll st calls).scroll_accumulator < 1 := by
  induction calls with
  | nil => intro st h1 h2; exact ⟨h1, h2⟩
  | cons c rest ih =>
    intro st h1 h2
    obtain ⟨g1, g2⟩ := scroll_step_bounds st c.1 c.2 h1 h2
    simpa only [runScroll] using ih _ g1 g2

/-! ### Claim theorems -/

/-- C6: `submit_frame` never blocks or raises (it is a total function of the
slot), and — while the worker is running — an empty slot receives the new
frame, while a full slot has its pending frame discarded and replaced, so the
slot afterwards holds exactly the newest submitted frame. -/
theorem C6_submit_frame_drop_oldest {α : Type} (slot : Option α) (frame : α) :
    submit_frame true slot frame = some frame := by
  cases slot <;> rfl

/-- C4: the first `OneEuroFilter.filter` call returns its input unchanged and
seeds the state (raw value, smoothed value, timestamp); every later call whose
elapsed time is ≤ 0 returns the last filtered value and leaves the entire
filter state (both low-pass filters and the timestamp) unchanged. -/
theorem C4_filter_first_call_and_nonpositive_dt :
    (∀ mc b dc x t : ℚ,
      (OneEuroFilter.init mc b dc).filter x t =
        (x, ⟨mc, b, dc, ⟨x, x, 1, true⟩, LowPassFilter.mk0 1, some t⟩)) ∧
    (∀ (f : OneEuroFilter) (x t lt : ℚ), f.last_time = some lt → t - lt ≤ 0 →
      f.filter x t = (f.x_filter.s, f)) := by
  constructor
  · intro mc b dc x t
    rfl
  · intro f x t lt hlt hdt
    unfold OneEuroFilter.filter
    rw [hlt]
    simp only [if_pos hdt]

theorem C4_witness :
    c4state.filter 7 10 = (c4state.x_filter.s, c4state) :=
  C4_filter_first_call_and_nonpositive_dt.2 c4state 7 10 10 (by decide) (by norm_num)

/-- C8: `scroll_vertical` — below the 0.1 dead-zone nothing is emitted and the
state is untouched; otherwise the filtered speed joins the accumulator, a
nonzero truncation is emitted as exactly that many whole scroll units and
subtracted (leaving a fractional remainder strictly inside (-1, 1)), a zero
truncation emits nothing; along any call sequence from the initial controller
state the accumulator stays strictly between -1 and 1 after every call. -/
theorem C8_scroll_vertical_spec :
    (∀ (st : ScrollState) (speed t : ℚ), |speed| < 1 / 10 →
      scroll_vertical st speed t = (st, none, false)) ∧
    (∀ (st : ScrollState) (speed t : ℚ), 1 / 10 ≤ |speed| →
      (truncQ (st.scroll_accumulator + (st.scroll_filter.filter speed t).1) ≠ 0 →
        scroll_vertical st speed t =
          (⟨(st.scroll_filter.filter speed t).2,
            st.scroll_accumulator + (st.scroll_filter.filter speed t).1 -
              truncQ (st.scroll_accumulator + (st.scroll_filter.filter speed t).1)⟩,
           some (MouseCmd.scrollCmd
             (truncQ (st.scroll_accumulator + (st.scroll_filter.filter speed t).1))),
           true) ∧
        -1 < (scroll_vertical st speed t).1.scroll_accumulator ∧
        (scroll_vertical st speed t).1.scroll_accumulator < 1) ∧
      (truncQ (st.scroll_accumulator + (st.scroll_filter.filter speed t).1) = 0 →
        scroll_vertical st speed t =
          (⟨(st.scroll_filter.filter speed t).2,
            st.scroll_accumulator + (st.scroll_filter.filter speed t).1⟩, none, false))) ∧
    (∀ calls : List (ℚ × ℚ),
      -1 < (runScroll ScrollState.init calls).scroll_accumulator ∧
      (runScroll ScrollState.init calls).scroll_accumulator < 1) := by
  refine ⟨?_, ?_, ?_⟩
  · intro st speed t h
    unfold scroll_vertical
    rw [if_pos h]
  · intro st speed t h
    have hnd : ¬(|speed| < 1 / 10) := not_lt.mpr h
    constructor
    · intro hz
      constructor
      · unfold scroll_vertical
        rw [if_neg hnd]
        dsimp only
        rw [if_pos hz]
      · unfold scroll_vertical
        rw [if_neg hnd]
        dsimp only
        rw [if_pos hz]
        exact truncQ_fract_bounds _
    · intro hz
      unfold scroll_vertical
      rw [if_neg hnd]
      dsimp only
      rw [if_neg (by simpa using hz)]
  · intro calls
    exact runScroll_bounds calls ScrollState.init (by norm_num [ScrollState.init])
      (by norm_num [ScrollState.init])

theorem C8_witness :
    ¬(|(5 / 2 : ℚ)| < 1 / 10) ∧
    scroll_vertical ScrollState.init (5 / 2) 0 =
      (⟨(ScrollState.init.scroll_filter.filter (5 / 2) 0).2, 1 / 2⟩,
       some (MouseCmd.scrollCmd 2), true) := by
  have hspd : (1 / 10 : ℚ) ≤ |(5 / 2 : ℚ)| := by rw [abs_of_pos] <;> norm_num
  have hval : (ScrollState.init.scroll_filter.filter (5 / 2) 0).1 = 5 / 2 := rfl
  have hacc : ScrollState.init.scroll_accumulator +
      (ScrollState.init.scroll_filter.filter (5 / 2) 0).1 = 5 / 2 := by
    rw [hval]
    norm_num [ScrollState.init]
  have htr : truncQ (5 / 2 : ℚ) = 2 := by norm_num [truncQ]
  constructor
  · exact not_lt.mpr hspd
  · have h := (C8_scroll_vertical_spec.2.1 ScrollState.init (5 / 2) 0 hspd).1
      (by rw [hacc, htr]; norm_num)
    rw [h.1, hacc, htr]
    norm_num

lemma doClick_fired_iff (k : ClickKind) (s : ClickState) (now : ℚ) :
    (doClick k s now).2.2 = true ↔ 1 / 2 < now - s.last_click_time := by
  cases k <;>
    simp only [doClick, left_click, right_click, double_click] <;>
    split <;> simp_all

lemma doClick_fired_state (k : ClickKind) (s : ClickState) (now : ℚ)
    (h : (doClick k s now).2.2 = true) : (doClick k s now).1 = ⟨now⟩ := by
  cases k <;>
    simp only [doClick, left_click, right_click, double_click] at h ⊢ <;>
    split at h <;> simp_all

lemma doClick_not_fired (k : ClickKind) (s : ClickState) (now : ℚ)
    (h : ¬(1 / 2 < now - s.last_click_time)) : doClick k s now = (s, [], false) := by
  cases k <;>
    simp only [doClick, left_click, right_click, double_click] <;>
    rw [if_neg h]

/-- The emitted-click times of a `runClicks` trace, prefixed with the initial
`last_click_time`, always form a chain of gaps strictly larger than 0.5 s;
the final state records the last emission. -/
lemma runClicks_chain (calls : List (ClickKind × ℚ)) :
    ∀ s : ClickState,
      List.Chain' (fun a b => 1 / 2 < b - a)
        (s.last_click_time :: (runClicks s calls).2) := by
  induction calls with
  | nil => intro s; simp [runClicks]
  | cons c rest ih =>
    intro s
    by_cases h : 1 / 2 < c.2 - s.last_click_time
    · have hf : (doClick c.1 s c.2).2.2 = true := (doClick_fired_iff c.1 s c.2).mpr h
      have hs : (doClick c.1 s c.2).1 = ⟨c.2⟩ := doClick_fired_state c.1 s c.2 hf
      have := ih (doClick c.1 s c.2).1
      rw [hs] at this
      simp only [runClicks, hf, if_pos rfl, hs]
      exact List.Chain'.cons h this
    · have hnf : doClick c.1 s c.2 = (s, [], false) := doClick_not_fired c.1 s c.2 h
      simp only [runClicks, hnf]
      simpa using ih s

/-- C10: the three click methods share one `last_click_time` with one 0.5 s
cooldown.  A call fires iff more than 0.5 s has passed since the last
emission of any kind; firing stamps the shared timer; within 0.5 s of a fire
every one of the three returns False and emits nothing; and along any call
sequence the emitted click times are pairwise more than 0.5 s apart. -/
theorem C10_shared_click_cooldown :
    (∀ (k : ClickKind) (s : ClickState) (now : ℚ),
      ((doClick k s now).2.2 = true ↔ 1 / 2 < now - s.last_click_time) ∧
      ((doClick k s now).2.2 = true → (doClick k s now).1.last_click_time = now) ∧
      ((doClick k s now).2.2 = false → doClick k s now = (s, [], false))) ∧
    (∀ (k k2 : ClickKind) (s : ClickState) (now t2 : ℚ),
      (doClick k s now).2.2 = true → t2 - now ≤ 1 / 2 →
      doClick k2 (doClick k s now).1 t2 = ((doClick k s now).1, [], false)) ∧
    (∀ (s : ClickState) (calls : List (ClickKind × ℚ)),
      List.Pairwise (fun a b => 1 / 2 < b - a) (runClicks s calls).2) := by
  refine ⟨?_, ?_, ?_⟩
  · intro k s now
    refine ⟨doClick_fired_iff k s now, ?_, ?_⟩
    · intro h
      rw [doClick_fired_state k s now h]
    · intro h
      apply doClick_not_fired
      intro hc
      rw [(doClick_fired_iff k s now).mpr hc] at h
      exact absurd h (by simp)
  · intro k k2 s now t2 hf hle
    rw [doClick_fired_state k s now hf]
    apply doClick_not_fired
    simp only [ClickState.last_click_time]
    linarith
  · intro s calls
    have hch := runClicks_chain calls s
    have htr : Transitive (fun a b : ℚ => 1 / 2 < b - a) := by
      intro a b c h1 h2
      linarith
    haveI : IsTrans ℚ (fun a b : ℚ => 1 / 2 < b - a) := ⟨htr⟩
    exact (List.chain'_iff_pairwise.mp hch).sublist (List.sublist_cons_self _ _)

theorem C10_witness :
    (doClick ClickKind.leftK ⟨0⟩ 1).1.last_click_time = 1 ∧
    doClick ClickKind.doubleK ⟨1⟩ (5 / 4) = (⟨1⟩, [], false) := by
  have hf : (doClick ClickKind.leftK (⟨0⟩ : ClickState) 1).2.2 = true := by
    rw [doClick_fired_iff]
    norm_num
  constructor
  · exact (C10_shared_click_cooldown.1 ClickKind.leftK ⟨0⟩ 1).2.1 hf
  · have h2 := C10_shared_click_cooldown.2.1 ClickKind.leftK ClickKind.doubleK ⟨0⟩ 1 (5 / 4)
      hf (by norm_num)
    have hs : (doClick ClickKind.leftK (⟨0⟩ : ClickState) 1).1 = ⟨1⟩ :=
      doClick_fired_state ClickKind.leftK ⟨0⟩ 1 hf
    rw [hs] at h2
    exact h2

lemma countKey_pos_mem (buf : List String) (k : String) (h : 0 < countKey buf k) :
    k ∈ buf := by
  unfold countKey at h
  obtain ⟨x, hx⟩ := List.exists_mem_of_length_pos h
  have hmem := List.mem_filter.mp hx
  have : x = k := by simpa using hmem.2
  exact this ▸ hmem.1

lemma countKey_cons (a : String) (l : List String) (k : String) :
    countKey (a :: l) k = (if a = k then 1 else 0) + countKey l k := by
  unfold countKey
  rw [List.filter_cons]
  by_cases h : a = k
  · subst h
    simp
    omega
  · have hb : (a == k) = false := beq_eq_false_iff_ne.mpr h
    simp [hb, h]

lemma countKey_add_le (k1 k2 : String) (hne : k1 ≠ k2) :
    ∀ buf : List String, countKey buf k1 + countKey buf k2 ≤ buf.length := by
  intro buf
  induction buf with
  | nil => simp [countKey]
  | cons a l ih =>
    rw [countKey_cons, countKey_cons, List.length_cons]
    by_cases h1 : a = k1
    · have h2 : ¬(a = k2) := fun h => hne (by rw [← h1, h])
      rw [if_pos h1, if_neg h2]
      omega
    · rw [if_neg h1]
      by_cases h2 : a = k2
      · rw [if_pos h2]
        omega
      · rw [if_neg h2]
        omega

lemma firstOccs_go_mem (l : List String) :
    ∀ (acc : List String) (k : String), k ∈ acc ∨ k ∈ l →
      k ∈ List.foldl (fun acc k => if k ∈ acc then acc else acc ++ [k]) acc l := by
  induction l with
  | nil => intro acc k h; simpa using h
  | cons a t ih =>
    intro acc k h
    simp only [List.foldl_cons]
    apply ih
    rcases h with h | h
    · left
      split
      · exact h
      · exact List.mem_append_left _ h
    · rcases List.mem_cons.mp h with rfl | h
      · left
        split
        · assumption
        · exact List.mem_append_right _ (List.mem_singleton.mpr rfl)
      · right
        exact h

lemma mem_firstOccs (buf : List String) (k : String) (h : k ∈ buf) :
    k ∈ firstOccs buf :=
  firstOccs_go_mem buf [] k (Or.inr h)

lemma bestOf_go (buf : List String) :
    ∀ (cands : List String) (bk : String) (bc : Nat), bc = countKey buf bk →
      ∃ rk rc, List.foldl (bestStep buf) (some (bk, bc)) cands = some (rk, rc) ∧
        rc = countKey buf rk ∧ bc ≤ rc ∧ ∀ k ∈ cands, countKey buf k ≤ rc := by
  intro cands
  induction cands with
  | nil =>
    intro bk bc hbc
    exact ⟨bk, bc, rfl, hbc, le_refl bc, by simp⟩
  | cons a t ih =>
    intro bk bc hbc
    simp only [List.foldl_cons, bestStep]
    by_cases h : bc < countKey buf a
    · obtain ⟨rk, rc, heq, hrc, hle, hall⟩ := ih a (countKey buf a) rfl
      rw [if_pos h] at *
      refine ⟨rk, rc, heq, hrc, le_of_lt (lt_of_lt_of_le h hle), ?_⟩
      intro k hk
      rcases List.mem_cons.mp hk with rfl | hk
      · exact hle
      · exact hall k hk
    · obtain ⟨rk, rc, heq, hrc, hle, hall⟩ := ih bk bc hbc
      rw [if_neg h]
      refine ⟨rk, rc, heq, hrc, hle, ?_⟩
      intro k hk
      rcases List.mem_cons.mp hk with rfl | hk
      · exact le_trans (not_lt.mp h) hle
      · exact hall k hk

lemma mostCommon_spec (buf : List String) (rk : String) (rc : Nat)
    (h : mostCommon buf = some (rk, rc)) :
    rc = countKey buf rk ∧ ∀ k ∈ buf, countKey buf k ≤ rc := by
  unfold mostCommon bestOf at h
  rcases hfo : firstOccs buf with _ | ⟨a, t⟩
  · rw [hfo] at h
    simp at h
  · rw [hfo] at h
    simp only [List.foldl_cons, bestStep] at h
    obtain ⟨rk2, rc2, heq, hrc2, _, hall⟩ := bestOf_go buf t a (countKey buf a) rfl
    rw [heq] at h
    obtain ⟨h1, h2⟩ := Prod.mk.injEq .. ▸ (Option.some.injEq .. ▸ h)
    subst h1
    subst h2
    refine ⟨hrc2, ?_⟩
    intro k hk
    have hmem : k ∈ firstOccs buf := mem_firstOccs buf k hk
    rw [hfo] at hmem
    rcases List.mem_cons.mp hmem with rfl | hmem
    · obtain ⟨_, _, heq2, _, hle2, _⟩ := bestOf_go buf t k (countKey buf k) rfl
      exact le_trans hle2 (by rw [heq2] at heq; cases heq; rfl) |>.trans (le_refl _)
    · exact hall k hmem

/-- C2 (amended): buffer resolution — SCROLL_ACTIVE anywhere in the buffer
wins unconditionally; otherwise a key holding at least 4 of the ≤ 6 slots is
the unique most frequent key and is accepted as stable; otherwise the tick is
unstable and the CURRENT RAW key (not the previously accepted stable key)
passes through as the output; pushing onto the 6-deep deque preserves the
length bound. -/
theorem C2_buffer_resolution :
    (∀ (buf : List String) (raw : String), "SCROLL_ACTIVE" ∈ buf →
      resolveBuffer buf raw = ("SCROLL_ACTIVE", true)) ∧
    (∀ (buf : List String) (raw k : String), buf.length ≤ 6 →
      "SCROLL_ACTIVE" ∉ buf → 4 ≤ countKey buf k →
      resolveBuffer buf raw = (k, true)) ∧
    (∀ (buf : List String) (raw : String), "SCROLL_ACTIVE" ∉ buf →
      (∀ k, countKey buf k < 4) →
      resolveBuffer buf raw = (raw, false)) ∧
    (∀ (buf : List String) (k : String), buf.length ≤ 6 →
      (pushBuffer buf k).length ≤ 6) := by
  refine ⟨?_, ?_, ?_, ?_⟩
  · intro buf raw h
    unfold resolveBuffer
    rw [if_pos h]
  · intro buf raw k hlen hscroll hcount
    have hmem : k ∈ buf := countKey_pos_mem buf k (by omega)
    unfold resolveBuffer
    rw [if_neg hscroll]
    rcases hmc : mostCommon buf with _ | ⟨rk, rc⟩
    · exfalso
      have : k ∈ firstOccs buf := mem_firstOccs buf k hmem
      unfold mostCommon bestOf at hmc
      rcases hfo : firstOccs buf with _ | ⟨a, t⟩
      · rw [hfo] at this
        simp at this
      · rw [hfo] at hmc
        simp only [List.foldl_cons, bestStep] at hmc
        obtain ⟨rk2, rc2, heq, _, _, _⟩ := bestOf_go buf t a (countKey buf a) rfl
        rw [heq] at hmc
        exact Option.some_ne_none _ hmc
    · obtain ⟨hrc, hall⟩ := mostCommon_spec buf rk rc hmc
      have h4 : 4 ≤ rc := le_trans hcount (hall k hmem)
      have hrk : rk = k := by
        by_contra hne
        have := countKey_add_le rk k hne buf
        rw [← hrc] at this
        omega
      subst hrk
      dsimp only
      rw [if_pos h4]
  · intro buf raw hscroll hsmall
    unfold resolveBuffer
    rw [if_neg hscroll]
    rcases hmc : mostCommon buf with _ | ⟨rk, rc⟩
    · rfl
    · have hrc := (mostCommon_spec buf rk rc hmc).1
      dsimp only
      rw [if_neg (by rw [hrc]; exact not_le.mpr (hsmall rk))]
  · intro buf k hlen
    unfold pushBuffer
    dsimp only
    split
    · simp only [List.length_drop]
      omega
    · rename_i h
      simp only [List.length_append, List.length_singleton] at h ⊢
      omega

theorem C2_witness :
    ("SCROLL_ACTIVE" : String) ∉
      ["NEUTRAL", "LEFT_CLICK", "LEFT_CLICK", "LEFT_CLICK", "LEFT_CLICK", "STOP"] ∧
    resolveBuffer
      ["NEUTRAL", "LEFT_CLICK", "LEFT_CLICK", "LEFT_CLICK", "LEFT_CLICK", "STOP"]
      "STOP" = ("LEFT_CLICK", true) :=
  ⟨by decide,
   C2_buffer_resolution.2.1
     ["NEUTRAL", "LEFT_CLICK", "LEFT_CLICK", "LEFT_CLICK", "LEFT_CLICK", "STOP"]
     "STOP" "LEFT_CLICK" (by decide) (by decide) (by decide)⟩

/-- C2 counterexample: on an unstable tick (six distinct keys in the buffer)
the code outputs the current raw key, not the previously accepted stable key
as the claim states: `resolveBufferSpec` (the claim, verbatim) with previous
stable key NEUTRAL returns NEUTRAL, while the code returns the raw key STOP. -/
theorem C2_counterexample :
    resolveBuffer
      ["NEUTRAL", "CURSOR_CONTROL", "RIGHT_CLICK", "LEFT_CLICK", "DOUBLE_CLICK", "STOP"]
      "STOP" = ("STOP", false) ∧
    resolveBufferSpec
      ["NEUTRAL", "CURSOR_CONTROL", "RIGHT_CLICK", "LEFT_CLICK", "DOUBLE_CLICK", "STOP"]
      "NEUTRAL" = ("NEUTRAL", false) ∧
    ("STOP" : String) ≠ "NEUTRAL" := by
  refine ⟨by decide, by decide, by decide⟩

/-- C5 (amended): on a tick with no hand detected, the `process_frame` path
resets ONLY the hand-entry debounce origin, leaving the hold timer, held key,
triggered flag, needs-reset flag and scroll baseline unchanged; the `run`
logic loop (whose gesture list is empty on such a tick) changes nothing at
all and emits no command, so a latched drag is not force-released. -/
theorem C5_no_hand_resets_only_debounce :
    (∀ s : TriggerState,
      (processFrameNoHand s).hand_visible_start_time = 0 ∧
      (processFrameNoHand s).last_gesture_name = s.last_gesture_name ∧
      (processFrameNoHand s).gesture_start_time = s.gesture_start_time ∧
      (processFrameNoHand s).gesture_triggered = s.gesture_triggered ∧
      (processFrameNoHand s).needs_reset = s.needs_reset ∧
      (processFrameNoHand s).last_movement_time = s.last_movement_time ∧
      (processFrameNoHand s).scroll_zero_y = s.scroll_zero_y) ∧
    (∀ (s : TriggerState) (buf : List String) (now : ℚ),
      runLogicTick s buf now [] = (s, buf, [])) := by
  constructor
  · intro s
    exact ⟨rfl, rfl, rfl, rfl, rfl, rfl, rfl⟩
  · intro s buf now
    rfl

/-- C5 counterexample: a concrete no-hand tick in which the hold timer, held
key, single-shot flag, needs-reset flag and scroll baseline all survive,
contradicting the claimed full reset to neutral. -/
theorem C5_counterexample :
    (processFrameNoHand ⟨some "LEFT_CLICK", 5, true, true, 2, some (1 / 2), 3, 7⟩).gesture_triggered
        = true ∧
    (processFrameNoHand ⟨some "LEFT_CLICK", 5, true, true, 2, some (1 / 2), 3, 7⟩).needs_reset
        = true ∧
    (processFrameNoHand ⟨some "LEFT_CLICK", 5, true, true, 2, some (1 / 2), 3, 7⟩).scroll_zero_y
        = some (1 / 2) ∧
    (processFrameNoHand ⟨some "LEFT_CLICK", 5, true, true, 2, some (1 / 2), 3, 7⟩).last_gesture_name
        = some "LEFT_CLICK" ∧
    (runLogicTick ⟨some "LEFT_CLICK", 5, true, true, 2, some (1 / 2), 3, 7⟩ [] 9 []).1
        = ⟨some "LEFT_CLICK", 5, true, true, 2, some (1 / 2), 3, 7⟩ ∧
    (runLogicTick ⟨some "LEFT_CLICK", 5, true, true, 2, some (1 / 2), 3, 7⟩ [] 9 []).2.2
        = ([] : List TickOutput) :=
  ⟨rfl, rfl, rfl, rfl, rfl, rfl⟩


lemma exceptOk_bind {α β : Type} (a : α) (f : α → Except String β) :
    (Except.ok a >>= f : Except String β) = f a := rfl

lemma gfs_fixed (lm : Landmarks) (hd : String) :
    get_finger_states LANDMARK_INDICES_FIXED lm hd = Except.ok (finger_states_fixed lm) := rfl

lemma chs_fixed (lm : Landmarks) :
    calculate_hand_scale LANDMARK_INDICES_FIXED lm = Except.ok (sqDist (lm 9) (lm 0)) := rfl

lemma gi_fixed_idx : getIdxE LANDMARK_INDICES_FIXED "INDEX_TIP" = Except.ok 8 := rfl
lemma gi_fixed_thumb : getIdxE LANDMARK_INDICES_FIXED "THUMB_TIP" = Except.ok 4 := rfl
lemma gi_fixed_mid : getIdxE LANDMARK_INDICES_FIXED "MIDDLE_TIP" = Except.ok 12 := rfl

/-- C3: on the code as shipped, `recognize_gesture` raises
`KeyError: THUMB_MCP` for EVERY landmark configuration (the missing
`LANDMARK_INDICES` entry is hit inside `get_finger_states` before the pinch
check), so it never returns the cursor-move classification; on the
intended table (thumb MCP = landmark 2) the claim holds: whenever the
squared thumb-tip/index-tip distance is below
`max(0.02², (0.3)²·hand_scale²)`, classification is unconditionally the
cursor-move override, regardless of the finger-extension states. -/
theorem C3_pinch_override :
    (∀ (lm : Landmarks) (hd : String),
      recognize_gesture LANDMARK_INDICES lm hd = Except.error "KeyError: THUMB_MCP") ∧
    (∀ (lm : Landmarks) (hd : String),
      sqDist (lm 8) (lm 4) < max (1 / 2500 : ℚ) ((9 / 100) * sqDist (lm 9) (lm 0)) →
      recognize_gesture LANDMARK_INDICES_FIXED lm hd =
        Except.ok ⟨"MOVING (Pinch)", "move_cursor", "CURSOR_CONTROL", 1⟩) := by
  constructor
  · intro lm hd
    rfl
  · intro lm hd h
    unfold recognize_gesture
    rw [gfs_fixed lm hd, chs_fixed lm]
    simp only [exceptOk_bind, gi_fixed_idx, gi_fixed_thumb, gi_fixed_mid]
    rw [if_pos h]
    rfl

theorem C3_witness :
    sqDist (lmPinch 8) (lmPinch 4) <
      max (1 / 2500 : ℚ) ((9 / 100) * sqDist (lmPinch 9) (lmPinch 0)) ∧
    recognize_gesture LANDMARK_INDICES_FIXED lmPinch "Right" =
      Except.ok ⟨"MOVING (Pinch)", "move_cursor", "CURSOR_CONTROL", 1⟩ := by
  have h : sqDist (lmPinch 8) (lmPinch 4) <
      max (1 / 2500 : ℚ) ((9 / 100) * sqDist (lmPinch 9) (lmPinch 0)) := by
    norm_num [lmPinch, lmOf, sqDist]
  exact ⟨h, C3_pinch_override.2 lmPinch "Right" h⟩

lemma thumb_fixed_eq (lm : Landmarks) (hd : String) :
    is_thumb_extended LANDMARK_INDICES_FIXED lm hd =
      Except.ok (thumb_extended_fixed lm) := rfl

/-- C7 (amended): `is_thumb_extended` as shipped raises
`KeyError: THUMB_MCP` on every input (the `LANDMARK_INDICES` table lacks the
`THUMB_MCP` entry); under the intended entry (thumb MCP = landmark 2), it
returns true iff (a) the wrist→thumb-tip distance exceeds the wrist→IP and
wrist→MCP distances, and (b) the thumb-tip→index-base distance exceeds
0.45 × the WRIST→INDEX-BASE distance — the code's scale reference is the
index-finger base, not the wrist→middle-base hand scale of the claim. -/
theorem C7_thumb_extension :
    (∀ (lm : Landmarks) (hd : String),
      is_thumb_extended LANDMARK_INDICES lm hd = Except.error "KeyError: THUMB_MCP") ∧
    (∀ (lm : Landmarks) (hd : String),
      is_thumb_extended LANDMARK_INDICES_FIXED lm hd = Except.ok true ↔
        ((sqDist (lm 3) (lm 0) < sqDist (lm 4) (lm 0) ∧
          sqDist (lm 2) (lm 0) < sqDist (lm 4) (lm 0)) ∧
         (81 / 400 : ℚ) * sqDist (lm 5) (lm 0) < sqDist (lm 4) (lm 5))) := by
  constructor
  · intro lm hd
    rfl
  · intro lm hd
    rw [thumb_fixed_eq lm hd]
    unfold thumb_extended_fixed
    simp [Except.ok.injEq, Bool.and_eq_true, decide_eq_true_iff, and_assoc]

/-- C7 counterexample: at `lmT1` the claimed predicate holds but the code
raises `KeyError` instead of returning true; at `lmT2` the repaired code
returns true while the claimed predicate (with the wrist→middle-base scale)
is false — refuting both the "returns" part and the claimed scale reference. -/
theorem C7_counterexample :
    (is_thumb_extended LANDMARK_INDICES lmT1 "Right" = Except.error "KeyError: THUMB_MCP" ∧
     claimedThumbPredicate lmT1) ∧
    (is_thumb_extended LANDMARK_INDICES_FIXED lmT2 "Right" = Except.ok true ∧
     ¬claimedThumbPredicate lmT2) := by
  refine ⟨⟨rfl, ?_⟩, ⟨?_, ?_⟩⟩
  · unfold claimedThumbPredicate lmT1 lmOf sqDist
    norm_num
  · rw [thumb_fixed_eq]
    unfold thumb_extended_fixed lmT2 lmOf sqDist
    norm_num
  · unfold claimedThumbPredicate lmT2 lmOf sqDist
    norm_num

lemma clickKey_ne_scroll (k : String) (h : isClickKey k = true) : ¬(k = "SCROLL_ACTIVE") := by
  unfold isClickKey at h
  simp only [Bool.or_eq_true, beq_iff_eq] at h
  rcases h with (h | h) | h <;> subst h <;> decide

lemma isClickKey_not_false (k : String) (h : isClickKey k = true) :
    ¬(isClickKey k = false ∧ True) := by
  rintro ⟨hf, -⟩
  rw [h] at hf
  exact absurd hf (by simp)

/-- Eliminating the scroll branches of `decideTick` when the target key is
not SCROLL_ACTIVE and no forced-scroll grace window is active. -/
lemma decideTick_noscroll (s : TriggerState) (now : ℚ) (k : String) (stb : Bool)
    (act : String) (y : ℚ) (h0 : ¬(k = "SCROLL_ACTIVE"))
    (hnf : s.scroll_zero_y = none ∨ 1 / 2 ≤ now - s.last_scroll_active_time) :
    decideTick s now k stb act y = nonScrollTick s now k stb act := by
  unfold decideTick
  dsimp only
  rw [if_neg h0]
  rw [if_neg]
  rintro (hc | ⟨-, hz, ht⟩)
  · exact h0 hc
  · rcases hnf with hnone | hge
    · exact hz hnone
    · exact absurd ht (not_lt.mpr hge)

lemma nonScroll_click_fire_iff (s : TriggerState) (now : ℚ) (k : String) (stb : Bool)
    (act : String) (hk : isClickKey k = true)
    (hinv : s.needs_reset = true → s.gesture_triggered = true) :
    (nonScrollTick s now k stb act).2 = TickOutput.clickFired act ↔
      (s.last_gesture_name = some k ∧
       MOVEMENT_GRACE_PERIOD ≤ now - s.last_movement_time ∧
       triggerDelay k < now - s.gesture_start_time ∧
       s.gesture_triggered = false) := by
  unfold nonScrollTick
  dsimp only
  have hckf : ¬(isClickKey k = false ∧ stb = true) := by
    rw [hk]
    rintro ⟨hf, -⟩
    exact absurd hf (by simp)
  by_cases hnr : s.needs_reset = true
  · rw [if_pos ⟨hnr, hckf⟩]
    refine iff_of_false (by simp) ?_
    rintro ⟨-, -, -, htr⟩
    rw [hinv hnr] at htr
    exact absurd htr (by simp)
  · rw [if_neg (by rintro ⟨h1, -⟩; exact hnr h1)]
    rw [if_neg (show ¬(isClickKey k = false) by rw [hk]; simp)]
    by_cases hlast : some k = s.last_gesture_name
    · rw [if_pos hlast]
      by_cases hgr : now - s.last_movement_time < MOVEMENT_GRACE_PERIOD
      · rw [if_pos hgr]
        refine iff_of_false (by simp) ?_
        rintro ⟨-, hge, -, -⟩
        exact absurd hgr (not_lt.mpr hge)
      · rw [if_neg hgr]
        by_cases hdel : triggerDelay k < now - s.gesture_start_time
        · rw [if_pos hdel]
          by_cases htr : s.gesture_triggered = false
          · rw [if_pos htr]
            exact iff_of_true rfl ⟨hlast.symm, not_lt.mp hgr, hdel, htr⟩
          · rw [if_neg htr]
            refine iff_of_false (by simp) ?_
            rintro ⟨-, -, -, h⟩
            exact htr h
        · rw [if_neg hdel]
          refine iff_of_false (by simp) ?_
          rintro ⟨-, -, h, -⟩
          exact hdel h
    · rw [if_neg hlast]
      refine iff_of_false (by simp) ?_
      rintro ⟨h, -, -, -⟩
      exact hlast h.symm

/-- A decision tick either scrolls or runs the non-scroll branch on the
(possibly scroll-timestamped) state. -/
lemma decideTick_scroll_or_nonscroll (s : TriggerState) (now : ℚ) (k : String)
    (stb : Bool) (act : String) (y : ℚ) :
    (∃ sp, (decideTick s now k stb act y).2 = TickOutput.scrolled sp) ∨
    decideTick s now k stb act y =
      nonScrollTick
        (if k = "SCROLL_ACTIVE" then { s with last_scroll_active_time := now } else s)
        now k stb act := by
  by_cases h0 : k = "SCROLL_ACTIVE"
  · unfold decideTick
    dsimp only
    rw [if_pos h0, if_pos (Or.inl h0)]
    exact Or.inl ⟨_, rfl⟩
  · unfold decideTick
    dsimp only
    rw [if_neg h0]
    split
    · exact Or.inl ⟨_, rfl⟩
    · exact Or.inr rfl

/-- Any non-scroll tick that executes a click action leaves the single-shot
flag and the needs-reset flag set, and the scroll baseline cleared. -/
lemma nonScroll_fire_post (s : TriggerState) (now : ℚ) (k : String) (stb : Bool)
    (act act2 : String) (s2 : TriggerState)
    (h : nonScrollTick s now k stb act = (s2, TickOutput.clickFired act2)) :
    s2.gesture_triggered = true ∧ s2.needs_reset = true ∧ s2.scroll_zero_y = none := by
  unfold nonScrollTick at h
  dsimp only at h
  by_cases hc1 : ({ s with scroll_zero_y := none } : TriggerState).needs_reset = true ∧
      ¬(isClickKey k = false ∧ stb = true)
  · rw [if_pos hc1] at h
    exact absurd (congrArg Prod.snd h) (by simp)
  · rw [if_neg hc1] at h
    by_cases hc2 : isClickKey k = false
    · rw [if_pos hc2] at h
      split at h <;> exact absurd (congrArg Prod.snd h) (by simp)
    · rw [if_neg hc2] at h
      by_cases hc3 : some k = s.last_gesture_name
      · rw [if_pos hc3] at h
        by_cases hc4 : now - s.last_movement_time < MOVEMENT_GRACE_PERIOD
        · rw [if_pos hc4] at h
          exact absurd (congrArg Prod.snd h) (by simp)
        · rw [if_neg hc4] at h
          by_cases hc5 : triggerDelay k < now - s.gesture_start_time
          · rw [if_pos hc5] at h
            by_cases hc6 : s.gesture_triggered = false
            · rw [if_pos hc6] at h
              obtain ⟨h1, -⟩ := Prod.mk.injEq .. ▸ h
              rw [← h1]
              exact ⟨rfl, rfl, rfl⟩
            · rw [if_neg hc6] at h
              exact absurd (congrArg Prod.snd h) (by simp)
          · rw [if_neg hc5] at h
            exact absurd (congrArg Prod.snd h) (by simp)
      · rw [if_neg hc3] at h
        exact absurd (congrArg Prod.snd h) (by simp)

lemma nonScroll_suppress (s : TriggerState) (now : ℚ) (k : String) (stb : Bool)
    (act : String) (hk : isClickKey k = true) (hnr : s.needs_reset = true) :
    nonScrollTick s now k stb act =
      ({ s with scroll_zero_y := none }, TickOutput.releaseToReset) := by
  unfold nonScrollTick
  dsimp only
  rw [if_pos]
  exact ⟨hnr, by rw [hk]; rintro ⟨hf, -⟩; exact absurd hf (by simp)⟩

lemma decideTick_postFire_preserved (s : TriggerState) (now : ℚ) (k : String)
    (stb : Bool) (act : String) (y : ℚ) (hk : isClickKey k = true)
    (hP : postFireInv s) :
    decideTick s now k stb act y =
      ({ s with scroll_zero_y := none }, TickOutput.releaseToReset) := by
  rw [decideTick_noscroll s now k stb act y (clickKey_ne_scroll k hk) (Or.inl hP.2.2)]
  exact nonScroll_suppress s now k stb act hk hP.2.1

lemma countFires_cons (o : TickOutput) (os : List TickOutput) :
    countFires (o :: os) = (if isFire o = true then 1 else 0) + countFires os := by
  unfold countFires
  rw [List.filter_cons]
  split
  · simp
    omega
  · simp

lemma clickTicksRun_postFire (k : String) (hk : isClickKey k = true) :
    ∀ (ins : List (ℚ × Bool × String × ℚ)) (s : TriggerState), postFireInv s →
      countFires (clickTicksRun s k ins).2 = 0 := by
  intro ins
  induction ins with
  | nil => intro s _; rfl
  | cons c rest ih =>
    intro s hP
    obtain ⟨now, stb, act, y⟩ := c
    have hstep := decideTick_postFire_preserved s now k stb act y hk hP
    simp only [clickTicksRun, hstep]
    rw [countFires_cons]
    have hP2 : postFireInv { s with scroll_zero_y := none } := ⟨hP.1, hP.2.1, rfl⟩
    rw [ih _ hP2]
    rfl

lemma clickTicksRun_at_most_one (k : String) (hk : isClickKey k = true) :
    ∀ (ins : List (ℚ × Bool × String × ℚ)) (s : TriggerState),
      countFires (clickTicksRun s k ins).2 ≤ 1 := by
  intro ins
  induction ins with
  | nil => intro s; exact Nat.zero_le 1
  | cons c rest ih =>
    intro s
    obtain ⟨now, stb, act, y⟩ := c
    simp only [clickTicksRun]
    rw [countFires_cons]
    by_cases hf : isFire (decideTick s now k stb act y).2 = true
    · rw [if_pos hf]
      have hfire : ∃ a, (decideTick s now k stb act y).2 = TickOutput.clickFired a := by
        rcases hout : (decideTick s now k stb act y).2 with
          sp | _ | a2 | _ | a2 | _ | _ | _ <;> rw [hout] at hf
        all_goals first
          | exact ⟨_, rfl⟩
          | exact absurd hf (by simp [isFire])
      obtain ⟨a, ha⟩ := hfire
      have hP : postFireInv (decideTick s now k stb act y).1 := by
        rcases decideTick_scroll_or_nonscroll s now k stb act y with ⟨sp, hsp⟩ | heq
        · rw [ha] at hsp
          exact absurd hsp (by simp)
        · have hpair : nonScrollTick
              (if k = "SCROLL_ACTIVE" then { s with last_scroll_active_time := now } else s)
              now k stb act = ((decideTick s now k stb act y).1, TickOutput.clickFired a) := by
            rw [← heq, ← ha]
          exact nonScroll_fire_post _ now k stb act a _ hpair
      have := clickTicksRun_postFire k hk rest _ hP
      omega
    · rw [if_neg hf]
      have := ih (decideTick s now k stb act y).1
      omega

lemma decideTick_clears_reset (s : TriggerState) (now : ℚ) (k : String) (act : String)
    (y : ℚ) (hk : isClickKey k = false) (h0 : ¬(k = "SCROLL_ACTIVE"))
    (hnf : s.scroll_zero_y = none ∨ 1 / 2 ≤ now - s.last_scroll_active_time) :
    (decideTick s now k true act y).1.needs_reset = false := by
  rw [decideTick_noscroll s now k true act y h0 hnf]
  unfold nonScrollTick
  dsimp only
  rw [if_neg (by rintro ⟨-, hno⟩; exact hno ⟨hk, rfl⟩)]
  rw [if_pos hk]
  split <;> rfl

/-- C1 (amended): for a decision tick of the run loop whose resolved key is a
click-class key and which is not captured by the forced-scroll grace window,
given the state invariant that needs-reset implies the single-shot flag, the
click action is executed exactly when (i) the same key has been held longer
than its per-action trigger delay (0.8 s for DOUBLE_CLICK, 0.5 s otherwise),
(ii) AT LEAST the movement grace period (0.3 s) — equality included — has
elapsed since the last movement-class execution, and (iii) the single-shot
flag is unset; execution sets both the single-shot and needs-reset flags;
while needs-reset is set every click-class tick is suppressed as
"release to reset"; a stable non-click gesture clears the flag provided the
tick is not resolved as scrolling; and along any unbroken run of ticks
carrying the same click-class key, the click action executes at most once. -/
theorem C1_click_single_shot :
    (∀ (s : TriggerState) (now : ℚ) (k : String) (stb : Bool) (act : String) (y : ℚ),
      isClickKey k = true →
      (s.scroll_zero_y = none ∨ 1 / 2 ≤ now - s.last_scroll_active_time) →
      (s.needs_reset = true → s.gesture_triggered = true) →
      ((decideTick s now k stb act y).2 = TickOutput.clickFired act ↔
        (s.last_gesture_name = some k ∧
         MOVEMENT_GRACE_PERIOD ≤ now - s.last_movement_time ∧
         triggerDelay k < now - s.gesture_start_time ∧
         s.gesture_triggered = false))) ∧
    (∀ (s : TriggerState) (now : ℚ) (k : String) (stb : Bool) (act act2 : String)
        (y : ℚ) (s2 : TriggerState),
      decideTick s now k stb act y = (s2, TickOutput.clickFired act2) →
      s2.gesture_triggered = true ∧ s2.needs_reset = true) ∧
    (∀ (s : TriggerState) (now : ℚ) (k : String) (stb : Bool) (act : String) (y : ℚ),
      isClickKey k = true → s.needs_reset = true →
      (s.scroll_zero_y = none ∨ 1 / 2 ≤ now - s.last_scroll_active_time) →
      decideTick s now k stb act y =
        ({ s with scroll_zero_y := none }, TickOutput.releaseToReset)) ∧
    (∀ (s : TriggerState) (now : ℚ) (k : String) (act : String) (y : ℚ),
      isClickKey k = false → ¬(k = "SCROLL_ACTIVE") →
      (s.scroll_zero_y = none ∨ 1 / 2 ≤ now - s.last_scroll_active_time) →
      (decideTick s now k true act y).1.needs_reset = false) ∧
    (∀ (k : String) (ins : List (ℚ × Bool × String × ℚ)) (s : TriggerState),
      isClickKey k = true →
      countFires (clickTicksRun s k ins).2 ≤ 1) := by
  refine ⟨?_, ?_, ?_, ?_, ?_⟩
  · intro s now k stb act y hk hnf hinv
    rw [decideTick_noscroll s now k stb act y (clickKey_ne_scroll k hk) hnf]
    exact nonScroll_click_fire_iff s now k stb act hk hinv
  · intro s now k stb act act2 y s2 h
    rcases decideTick_scroll_or_nonscroll s now k stb act y with ⟨sp, hsp⟩ | heq
    · rw [h] at hsp
      exact absurd hsp (by simp)
    · have hpair : nonScrollTick
          (if k = "SCROLL_ACTIVE" then { s with last_scroll_active_time := now } else s)
          now k stb act = (s2, TickOutput.clickFired act2) := by rw [← heq, h]
      obtain ⟨h1, h2, -⟩ := nonScroll_fire_post _ now k stb act act2 s2 hpair
      exact ⟨h1, h2⟩
  · intro s now k stb act y hk hnr hnf
    rw [decideTick_noscroll s now k stb act y (clickKey_ne_scroll k hk) hnf]
    exact nonScroll_suppress s now k stb act hk hnr
  · intro s now k act y hk h0 hnf
    exact decideTick_clears_reset s now k act y hk h0 hnf
  · intro k ins s hk
    exact clickTicksRun_at_most_one k hk ins s

theorem C1_witness :
    (decideTick c1state 2 "RIGHT_CLICK" true "right_click" 0).2 =
      TickOutput.clickFired "right_click" ∧
    (decideTick ⟨some "LEFT_CLICK", 0, true, true, 0, none, -10, 0⟩ 2 "LEFT_CLICK" true
        "left_click" 0).2 = TickOutput.releaseToReset ∧
    (decideTick ⟨some "NEUTRAL", 0, true, true, 0, none, -10, 0⟩ 2 "NEUTRAL" true
        "none" 0).1.needs_reset = false := by
  refine ⟨?_, ?_, ?_⟩
  · exact (C1_click_single_shot.1 c1state 2 "RIGHT_CLICK" true "right_click" 0
      (by decide) (Or.inl rfl) (fun h => absurd h (by decide))).mpr
      ⟨rfl, by norm_num [c1state, MOVEMENT_GRACE_PERIOD],
       by
        have hne : ¬("RIGHT_CLICK" : String) = "DOUBLE_CLICK" := by decide
        norm_num [c1state, triggerDelay, hne], rfl⟩
  · exact congrArg Prod.snd (C1_click_single_shot.2.2.1
      ⟨some "LEFT_CLICK", 0, true, true, 0, none, -10, 0⟩ 2 "LEFT_CLICK" true
      "left_click" 0 (by decide) rfl (Or.inl rfl))
  · exact C1_click_single_shot.2.2.2.1
      ⟨some "NEUTRAL", 0, true, true, 0, none, -10, 0⟩ 2 "NEUTRAL" "none" 0
      (by decide) (by decide) (Or.inl rfl)

/-- C1 counterexample: (1) at exactly the movement grace boundary
(`now - last_movement_time = 0.3` precisely) the code DOES fire the click —
the claim's strict "more than the grace period" is violated; (2) a stable
SCROLL_ACTIVE tick (a stable non-click gesture) does NOT clear the
needs-reset flag, because the scroll branch bypasses the reset gate. -/
theorem C1_counterexample :
    ((decideTick ⟨some "LEFT_CLICK", -1, false, false, 0, none, -10, 0⟩ (3 / 10)
        "LEFT_CLICK" true "left_click" 0).2 = TickOutput.clickFired "left_click" ∧
     ¬(MOVEMENT_GRACE_PERIOD <
        (3 / 10 : ℚ) - (⟨some "LEFT_CLICK", -1, false, false, 0, none, -10, 0⟩ :
          TriggerState).last_movement_time)) ∧
    (decideTick ⟨some "LEFT_CLICK", 0, true, true, 0, none, 0, 0⟩ 10 "SCROLL_ACTIVE" true
        "scroll_active" 0).1.needs_reset = true := by
  refine ⟨⟨?_, ?_⟩, ?_⟩
  · rw [decideTick_noscroll ⟨some "LEFT_CLICK", -1, false, false, 0, none, -10, 0⟩
      (3 / 10) "LEFT_CLICK" true "left_click" 0 (by decide) (Or.inl rfl)]
    exact (nonScroll_click_fire_iff ⟨some "LEFT_CLICK", -1, false, false, 0, none, -10, 0⟩
      (3 / 10) "LEFT_CLICK" true "left_click" (by decide)
      (fun h => absurd h (by decide))).mpr
      ⟨rfl, by norm_num [MOVEMENT_GRACE_PERIOD],
       by
        have hne : ¬("LEFT_CLICK" : String) = "DOUBLE_CLICK" := by decide
        norm_num [triggerDelay, hne], rfl⟩
  · norm_num [MOVEMENT_GRACE_PERIOD]
  · unfold decideTick
    dsimp only
    rw [if_pos (show ("SCROLL_ACTIVE" : String) = "SCROLL_ACTIVE" from rfl)]
    rw [if_pos (Or.inl rfl)]

lemma mathPi_pos : (0 : ℚ) < mathPi := by norm_num [mathPi]

lemma oeAlpha_bounds (dt cutoff : ℚ) (hdt : 0 < dt) (hc : 0 < cutoff) :
    0 < oeAlpha (1 / dt) cutoff ∧ oeAlpha (1 / dt) cutoff < 1 := by
  unfold oeAlpha
  rw [one_div_one_div]
  have htau : 0 < 1 / (2 * mathPi * cutoff) := by
    apply div_pos one_pos
    have := mathPi_pos
    positivity
  have hx : 0 < 1 / (2 * mathPi * cutoff) / dt := div_pos htau hdt
  constructor
  · apply div_pos one_pos
    linarith
  · rw [div_lt_one (by linarith)]
    linarith

lemma oef_step_beta0 (f : OneEuroFilter) (c t lt : ℚ)
    (hβ : f.beta = 0) (hmc : 0 < f.min_cutoff) (hinit : f.x_filter.initialized = true)
    (hlt : f.last_time = some lt) (ht : lt < t) :
    ∃ α : ℚ, 0 < α ∧ α < 1 ∧
      (f.filter c t).1 = α * c + (1 - α) * f.x_filter.s ∧
      (f.filter c t).2.x_filter.s = (f.filter c t).1 ∧
      (f.filter c t).2.x_filter.initialized = true ∧
      (f.filter c t).2.last_time = some t ∧
      (f.filter c t).2.beta = f.beta ∧
      (f.filter c t).2.min_cutoff = f.min_cutoff := by
  have hdt : (0 : ℚ) < t - lt := by linarith
  have hne : ¬(t - lt ≤ 0) := not_le.mpr hdt
  refine ⟨oeAlpha (1 / (t - lt)) f.min_cutoff, (oeAlpha_bounds _ _ hdt hmc).1,
    (oeAlpha_bounds _ _ hdt hmc).2, ?_⟩
  unfold OneEuroFilter.filter
  rw [hlt]
  dsimp only
  rw [if_neg hne]
  unfold LowPassFilter.filter_with_alpha LowPassFilter.filter
  dsimp only
  rw [hβ, zero_mul, add_zero, hinit]
  rw [if_pos rfl]
  exact ⟨rfl, rfl, rfl, rfl, rfl, rfl⟩

lemma runOEF_step_chain_le : ∀ (ts : List ℚ) (f : OneEuroFilter) (t0 c1 : ℚ),
    f.beta = 0 → 0 < f.min_cutoff → f.x_filter.initialized = true →
    f.last_time = some t0 → List.Chain' (· < ·) (t0 :: ts) → f.x_filter.s ≤ c1 →
    List.Chain' (· ≤ ·) (f.x_filter.s :: (runOEF f (ts.map fun t => (c1, t))).1) ∧
    ∀ z ∈ (runOEF f (ts.map fun t => (c1, t))).1, z ≤ c1 := by
  intro ts
  induction ts with
  | nil =>
    intro f t0 c1 _ _ _ _ _ _
    simp [runOEF]
  | cons t ts' ih =>
    intro f t0 c1 hβ hmc hinit hlast hch hle
    have ht0t : t0 < t := (List.chain'_cons.mp hch).1
    obtain ⟨α, hα0, hα1, hout, hs, hinit2, hlast2, hβ2, hmc2⟩ :=
      oef_step_beta0 f c1 t t0 hβ hmc hinit hlast ht0t
    have hr1_ge : f.x_filter.s ≤ (f.filter c1 t).1 := by
      rw [hout]
      nlinarith
    have hr1_le : (f.filter c1 t).1 ≤ c1 := by
      rw [hout]
      nlinarith
    have hch' : List.Chain' (· < ·) (t :: ts') := (List.chain'_cons.mp hch).2
    obtain ⟨ihch, ihbd⟩ := ih (f.filter c1 t).2 t c1 (hβ2.trans hβ) (hmc2 ▸ hmc)
      hinit2 hlast2 hch' (hs ▸ hr1_le)
    rw [hs] at ihch
    constructor
    · simp only [List.map_cons, runOEF]
      exact List.chain'_cons.mpr ⟨hr1_ge, ihch⟩
    · simp only [List.map_cons, runOEF]
      intro z hz
      rcases List.mem_cons.mp hz with rfl | hz
      · exact hr1_le
      · exact ihbd z hz

lemma runOEF_step_chain_ge : ∀ (ts : List ℚ) (f : OneEuroFilter) (t0 c1 : ℚ),
    f.beta = 0 → 0 < f.min_cutoff → f.x_filter.initialized = true →
    f.last_time = some t0 → List.Chain' (· < ·) (t0 :: ts) → c1 ≤ f.x_filter.s →
    List.Chain' (· ≥ ·) (f.x_filter.s :: (runOEF f (ts.map fun t => (c1, t))).1) ∧
    ∀ z ∈ (runOEF f (ts.map fun t => (c1, t))).1, c1 ≤ z := by
  intro ts
  induction ts with
  | nil =>
    intro f t0 c1 _ _ _ _ _ _
    simp [runOEF]
  | cons t ts' ih =>
    intro f t0 c1 hβ hmc hinit hlast hch hle
    have ht0t : t0 < t := (List.chain'_cons.mp hch).1
    obtain ⟨α, hα0, hα1, hout, hs, hinit2, hlast2, hβ2, hmc2⟩ :=
      oef_step_beta0 f c1 t t0 hβ hmc hinit hlast ht0t
    have hr1_le : (f.filter c1 t).1 ≤ f.x_filter.s := by
      rw [hout]
      nlinarith
    have hr1_ge : c1 ≤ (f.filter c1 t).1 := by
      rw [hout]
      nlinarith
    have hch' : List.Chain' (· < ·) (t :: ts') := (List.chain'_cons.mp hch).2
    obtain ⟨ihch, ihbd⟩ := ih (f.filter c1 t).2 t c1 (hβ2.trans hβ) (hmc2 ▸ hmc)
      hinit2 hlast2 hch' (hs ▸ hr1_ge)
    rw [hs] at ihch
    constructor
    · simp only [List.map_cons, runOEF]
      exact List.chain'_cons.mpr ⟨hr1_le, ihch⟩
    · simp only [List.map_cons, runOEF]
      intro z hz
      rcases List.mem_cons.mp hz with rfl | hz
      · exact hr1_ge
      · exact ihbd z hz

lemma oef_const_step (f : OneEuroFilter) (c t : ℚ) (h : constInv c f) :
    (f.filter c t).1 = c ∧ constInv c (f.filter c t).2 := by
  unfold OneEuroFilter.filter
  rcases hlt : f.last_time with _ | lt
  · dsimp only
    unfold LowPassFilter.filter
    dsimp only
    by_cases hin : f.x_filter.initialized = true
    · have hs := h.1 hin
      rw [if_pos hin, hs]
      constructor
      · ring
      · refine ⟨fun _ => by ring, Or.inr rfl⟩
    · rw [if_neg hin]
      exact ⟨rfl, fun _ => rfl, Or.inr rfl⟩
  · dsimp only
    have hin : f.x_filter.initialized = true := by
      rcases h.2 with hnone | hi
      · rw [hlt] at hnone
        exact absurd hnone (by simp)
      · exact hi
    have hs := h.1 hin
    split
    · refine ⟨hs, h.1, ?_⟩
      rw [hlt]
      exact Or.inr hin
    · unfold LowPassFilter.filter_with_alpha LowPassFilter.filter
      dsimp only
      rw [hin, if_pos rfl, hs]
      constructor
      · ring
      · exact ⟨fun _ => by ring, Or.inr rfl⟩

lemma runOEF_const (c : ℚ) : ∀ (ts : List ℚ) (f : OneEuroFilter), constInv c f →
    (runOEF f (ts.map fun t => (c, t))).1 = ts.map fun _ => c := by
  intro ts
  induction ts with
  | nil => intro f _; rfl
  | cons t ts' ih =>
    intro f hf
    obtain ⟨hout, hinv⟩ := oef_const_step f c t hf
    simp only [List.map_cons, runOEF]
    rw [hout, ih _ hinv]

/-- C9: with beta = 0, a constant input yields exactly that constant at every
step (no overshoot); after a step change to a new constant, the outputs move
monotonically from the old smoothed value toward the new constant and never
cross it (both directions). -/
theorem C9_beta_zero_convergence :
    (∀ (mc dc c : ℚ) (ts : List ℚ),
      (runOEF (OneEuroFilter.init mc 0 dc) (ts.map fun t => (c, t))).1 =
        ts.map fun _ => c) ∧
    (∀ (f : OneEuroFilter) (t0 c0 c1 : ℚ) (ts : List ℚ),
      f.beta = 0 → 0 < f.min_cutoff → f.x_filter.initialized = true →
      f.x_filter.s = c0 → f.last_time = some t0 →
      List.Chain' (· < ·) (t0 :: ts) → c0 ≤ c1 →
      List.Chain' (· ≤ ·) (c0 :: (runOEF f (ts.map fun t => (c1, t))).1) ∧
      ∀ z ∈ (runOEF f (ts.map fun t => (c1, t))).1, z ≤ c1) ∧
    (∀ (f : OneEuroFilter) (t0 c0 c1 : ℚ) (ts : List ℚ),
      f.beta = 0 → 0 < f.min_cutoff → f.x_filter.initialized = true →
      f.x_filter.s = c0 → f.last_time = some t0 →
      List.Chain' (· < ·) (t0 :: ts) → c1 ≤ c0 →
      List.Chain' (· ≥ ·) (c0 :: (runOEF f (ts.map fun t => (c1, t))).1) ∧
      ∀ z ∈ (runOEF f (ts.map fun t => (c1, t))).1, c1 ≤ z) := by
  refine ⟨?_, ?_, ?_⟩
  · intro mc dc c ts
    apply runOEF_const
    constructor
    · intro h
      exact absurd h (by simp [OneEuroFilter.init, LowPassFilter.mk0])
    · exact Or.inl rfl
  · intro f t0 c0 c1 ts hβ hmc hinit hs hlast hch hle
    have := runOEF_step_chain_le ts f t0 c1 hβ hmc hinit hlast hch (hs ▸ hle)
    rw [hs] at this
    exact this
  · intro f t0 c0 c1 ts hβ hmc hinit hs hlast hch hle
    have := runOEF_step_chain_ge ts f t0 c1 hβ hmc hinit hlast hch (hs ▸ hle)
    rw [hs] at this
    exact this

theorem C9_witness :
    ((runOEF (OneEuroFilter.init 1 0 1) ([1, 2].map fun t => ((3 : ℚ), t))).1 =
      [1, 2].map fun _ => (3 : ℚ)) ∧
    (List.Chain' (· ≤ ·) (0 :: (runOEF c9state ([1, 2].map fun t => ((1 : ℚ), t))).1) ∧
      ∀ z ∈ (runOEF c9state ([1, 2].map fun t => ((1 : ℚ), t))).1, z ≤ 1) := by
  constructor
  · exact C9_beta_zero_convergence.1 1 1 3 [1, 2]
  · refine C9_beta_zero_convergence.2.1 c9state 0 0 1 [1, 2] rfl (by norm_num [c9state,
      OneEuroFilter.init, OneEuroFilter.filter, LowPassFilter.mk0, LowPassFilter.filter])
      rfl rfl rfl ?_ (by norm_num)
    simp only [List.chain'_cons, List.chain'_singleton, and_true]
    norm_num
